import Mathlib

/-!
Verification development for the FluentPython notebook examples
(Chapter 1 "The Python Data Model" and Chapter 3 "Dictionaries and Sets").

The Python snippets are shallowly embedded:
* a Python `dict` is an association list `List (K × V)` with insertion-order
  semantics: updating an existing key keeps its position, a new key is
  appended at the end;
* a raised `KeyError` is modelled by `none` / `Except.error`;
* Python keys that may be either a string or an integer (the `StrKeyDict`
  example) are modelled by the sum type `PyKey`, with `PyKey.pyStr`
  modelling Python's `str()` conversion.
-/

set_option autoImplicit false

namespace FluentPython

universe u v

variable {K : Type u} {V : Type v}

/-- Python `d[k]` lookup on the underlying dict: first (unique) matching key. -/
def dictLookup [DecidableEq K] : List (K × V) → K → Option V
  | [], _ => none
  | (k, v) :: rest, key => if k = key then some v else dictLookup rest key

/-- Python `d[k] = v`: update in place when the key exists (keeping its
insertion position), otherwise append the new pair at the end. -/
def dictInsert [DecidableEq K] : List (K × V) → K → V → List (K × V)
  | [], key, value => [(key, value)]
  | (k, v) :: rest, key, value =>
    if k = key then (k, value) :: rest else (k, v) :: dictInsert rest key value

/-- Python `d.get(k, default)`. -/
def dictGet [DecidableEq K] (d : List (K × V)) (key : K) (default : V) : V :=
  (dictLookup d key).getD default

/-- Python `d[k]` on a plain dict, surfacing `KeyError` for a missing key. -/
def dictGetitem [DecidableEq K] (d : List (K × V)) (key : K) : Except String V :=
  match dictLookup d key with
  | some v => Except.ok v
  | none => Except.error "KeyError"

/-- `collections.defaultdict.__getitem__` with a `default_factory`:
on a hit return the stored value and leave the dict alone; on a miss call
the factory, insert the produced value under the key, and return it. -/
def ddGetitem [DecidableEq K] (d : List (K × V)) (factory : Unit → V) (key : K) :
    V × List (K × V) :=
  match dictLookup d key with
  | some v => (v, d)
  | none => (factory (), dictInsert d key (factory ()))

@[simp] theorem dictLookup_nil [DecidableEq K] (key : K) :
    dictLookup ([] : List (K × V)) key = none := rfl

@[simp] theorem dictLookup_cons [DecidableEq K] (k : K) (v : V) (rest : List (K × V)) (key : K) :
    dictLookup ((k, v) :: rest) key = if k = key then some v else dictLookup rest key := rfl

@[simp] theorem dictInsert_nil [DecidableEq K] (key : K) (value : V) :
    dictInsert ([] : List (K × V)) key value = [(key, value)] := rfl

@[simp] theorem dictInsert_cons [DecidableEq K] (k : K) (v : V) (rest : List (K × V))
    (key : K) (value : V) :
    dictInsert ((k, v) :: rest) key value =
      if k = key then (k, value) :: rest else (k, v) :: dictInsert rest key value := rfl

theorem dictLookup_dictInsert_self [DecidableEq K] (d : List (K × V)) (key : K) (value : V) :
    dictLookup (dictInsert d key value) key = some value := by
  induction d with
  | nil => simp
  | cons p rest ih =>
    obtain ⟨k, v⟩ := p
    by_cases h : k = key <;> simp [h, ih]

theorem dictInsert_dictInsert_self [DecidableEq K] (d : List (K × V))
    (key : K) (v₁ v₂ : V) :
    dictInsert (dictInsert d key v₁) key v₂ = dictInsert d key v₂ := by
  induction d with
  | nil => simp
  | cons p rest ih =>
    obtain ⟨k, v⟩ := p
    by_cases h : k = key <;> simp [h, ih]

/-! ## Keys of `StrKeyDict`: Python values that are either a `str` or an `int` -/

/-- A Python key as used in the `StrKeyDict` example: either a string or an
integer.  Python's `==` never identifies a string with an integer, which is
exactly the `DecidableEq` of this sum type. -/
inductive PyKey : Type
  | str (s : String)
  | int (n : Int)
  deriving DecidableEq, Repr

/-- Python's `str()` applied to a key: the identity on strings, decimal
rendering of integers. -/
def PyKey.pyStr : PyKey → String
  | .str s => s
  | .int n => toString n

/-- `True` exactly on keys that are Python `str` instances
(`isinstance(key, str)`). -/
def PyKey.isStr : PyKey → Bool
  | .str _ => true
  | .int _ => false

/-- Depth measure justifying the termination of `StrKeyDict.getitem`:
`__missing__` re-enters `__getitem__` only with a string key. -/
def PyKey.depth : PyKey → Nat
  | .str _ => 0
  | .int _ => 1

/-! ## `StrKeyDict` (Example 3-6, Chapter 3)

```python
class StrKeyDict(collections.UserDict):
    def __missing__(self, key):
        if isinstance(key, str):
            raise KeyError(key)
        return self[str(key)]
    def __contains__(self, key):
        return str(key) in self.data
    def __setitem__(self, key, item):
        self.data[str(key)] = item
```

`collections.UserDict` stores the entries in `self.data` and its
`__getitem__` first tries `self.data[key]`, calling `self.__missing__(key)`
when the raw key is absent; its constructor and `update` route every stored
pair through `__setitem__`. -/

/-- A `StrKeyDict` instance: its `UserDict` backing dict `self.data`.
The keys are `PyKey` so that "every stored key is a string" is a provable
invariant rather than a typing artifact. -/
structure StrKeyDict (V : Type v) : Type v where
  data : List (PyKey × V)

/-- `StrKeyDict()` with no initial entries. -/
def StrKeyDict.empty : StrKeyDict V := ⟨[]⟩

/-- `d[k]` on a `StrKeyDict`: `UserDict.__getitem__` tries the raw key in
`self.data`; on a miss, `StrKeyDict.__missing__` raises `KeyError`
(modelled `none`) for a string key and re-enters `self[str(key)]` for a
non-string key. -/
def StrKeyDict.getitem (d : StrKeyDict V) (key : PyKey) : Option V :=
  match dictLookup d.data key with
  | some v => some v
  | none =>
    match key with
    | .str _ => none
    | .int n => StrKeyDict.getitem d (.str (toString n))
termination_by key.depth
decreasing_by simp [PyKey.depth]

/-- `StrKeyDict.getitem` with an explicit bound on how many times
`__getitem__` may be entered; exhausting the fuel stands for
non-termination. -/
def StrKeyDict.getitemFuel : Nat → StrKeyDict V → PyKey → Option V
  | 0, _, _ => none
  | fuel + 1, d, key =>
    match dictLookup d.data key with
    | some v => some v
    | none =>
      match key with
      | .str _ => none
      | .int n => StrKeyDict.getitemFuel fuel d (.str (toString n))

/-- `k in d`: `StrKeyDict.__contains__` tests `str(key) in self.data`. -/
def StrKeyDict.contains (d : StrKeyDict V) (key : PyKey) : Bool :=
  (dictLookup d.data (.str key.pyStr)).isSome

/-- `d[k] = v`: `StrKeyDict.__setitem__` stores under `str(key)`. -/
def StrKeyDict.setitem (d : StrKeyDict V) (key : PyKey) (item : V) : StrKeyDict V :=
  ⟨dictInsert d.data (.str key.pyStr) item⟩

/-- A sequence of item assignments, as performed by `UserDict.__init__` and
`UserDict.update`, which route every pair through `__setitem__`. -/
def StrKeyDict.setitems (d : StrKeyDict V) (ops : List (PyKey × V)) : StrKeyDict V :=
  ops.foldl (fun acc p => acc.setitem p.1 p.2) d

/-- The representation invariant of `StrKeyDict`: every key stored in
`self.data` is a string. -/
def StrKeyDict.wf (d : StrKeyDict V) : Prop :=
  ∀ p ∈ d.data, p.1.isStr = true

instance (d : StrKeyDict V) : Decidable d.wf := by
  unfold StrKeyDict.wf; infer_instance

theorem dictLookup_int_eq_none_of_strKeys {V : Type v} (l : List (PyKey × V))
    (h : ∀ p ∈ l, p.1.isStr = true) (n : Int) :
    dictLookup l (.int n) = none := by
  induction l with
  | nil => simp
  | cons p rest ih =>
    obtain ⟨k, v⟩ := p
    have hk : k.isStr = true := h (k, v) (List.mem_cons_self _ _)
    cases k with
    | str s =>
      simp only [dictLookup_cons]
      rw [if_neg (by simp)]
      exact ih fun q hq => h q (List.mem_cons_of_mem _ hq)
    | int m => simp [PyKey.isStr] at hk

/-! ## `FrenchDeck` (Chapter 1)

```python
Card = collections.namedtuple('Card', ['rank', 'suit'])

class FrenchDeck:
    ranks = [str(n) for n in range(2, 11)] + list('JQKA')
    suits = 'spades diamonds clubs hearts'.split()
    def __init__(self):
        self._cards = [Card(rank, suit) for suit in self.suits for rank in self.ranks]
    def __len__(self):
        return len(self._cards)
    def __getitem__(self, position):
        return self._cards[position]
```
-/

/-- The `Card` namedtuple with fields `rank` and `suit`. -/
structure Card : Type where
  rank : String
  suit : String
  deriving DecidableEq, Repr

/-- `[str(n) for n in range(2, 11)] + list('JQKA')`. -/
def FrenchDeck.ranks : List String :=
  ((List.range' 2 9).map (fun n => toString n)) ++ ["J", "Q", "K", "A"]

/-- `'spades diamonds clubs hearts'.split()`. -/
def FrenchDeck.suits : List String :=
  ["spades", "diamonds", "clubs", "hearts"]

/-- A `FrenchDeck` instance: its `self._cards` list. -/
structure FrenchDeck : Type where
  _cards : List Card

/-- `FrenchDeck.__init__`: the comprehension runs the suit loop outermost
and the rank loop innermost. -/
def FrenchDeck.init : FrenchDeck :=
  ⟨FrenchDeck.suits.flatMap fun suit => FrenchDeck.ranks.map fun rank => ⟨rank, suit⟩⟩

/-- `FrenchDeck.__len__`. -/
def FrenchDeck.len (deck : FrenchDeck) : Nat :=
  deck._cards.length

/-- Python list indexing `l[i]`: a non-negative index counts from the
front, a negative index counts from the back (`l[len(l) + i]`), and an
out-of-range position raises `IndexError` (modelled `none`). -/
def listGetitem {α : Type u} (l : List α) (i : Int) : Option α :=
  if 0 ≤ i then l.get? i.toNat
  else if 0 ≤ (l.length : Int) + i then l.get? ((l.length : Int) + i).toNat
  else none

/-- `FrenchDeck.__getitem__`: delegates to `self._cards[position]`. -/
def FrenchDeck.getitem (deck : FrenchDeck) (position : Int) : Option Card :=
  listGetitem deck._cards position

/-- `suit_values = dict(spades=3, hearts=2, diamonds=1, clubs=0)`. -/
def suit_values : List (String × Nat) :=
  [("spades", 3), ("hearts", 2), ("diamonds", 1), ("clubs", 0)]

/-- `spades_high` ranks a card by rank first, suit second.  A rank absent
from `FrenchDeck.ranks` (`ValueError` from `list.index`) or a suit absent
from `suit_values` (`KeyError`) is modelled `none`. -/
def spades_high (card : Card) : Option Nat :=
  match FrenchDeck.ranks.indexOf? card.rank, dictLookup suit_values card.suit with
  | some rank_value, some sv => some (rank_value * suit_values.length + sv)
  | _, _ => none

/-! ## The 2D `Vector` (Chapter 1)

```python
class Vector:
    def __init__(self, x = 0, y = 0): self.x = x; self.y = y
    def __abs__(self): return hypot(self.x, self.y)
    def __bool__(self): return bool(abs(self))
    def __add__(self, other): return Vector(self.x + other.x, self.y + other.y)
    def __mul__(self, scalar): return Vector(self.x * scalar, self.y * scalar)
```

The numeric components are idealized as real numbers, so `math.hypot` is
`Real.sqrt (x ^ 2 + y ^ 2)`. -/

/-- A `Vector` instance with its two numeric attributes. -/
structure Vector : Type where
  x : Real
  y : Real

/-- `math.hypot`, idealized over the reals. -/
noncomputable def hypot (x y : Real) : Real :=
  Real.sqrt (x ^ 2 + y ^ 2)

/-- `Vector.__add__`. -/
def Vector.add (v other : Vector) : Vector :=
  ⟨v.x + other.x, v.y + other.y⟩

/-- `Vector.__mul__`. -/
def Vector.mul (v : Vector) (scalar : Real) : Vector :=
  ⟨v.x * scalar, v.y * scalar⟩

/-- `Vector.__abs__`. -/
noncomputable def Vector.abs (v : Vector) : Real :=
  hypot v.x v.y

/-- `Vector.__bool__` returns `bool(abs(self))`: a Python number is truthy
exactly when it is nonzero. -/
def Vector.toBool (v : Vector) : Prop :=
  Vector.abs v ≠ 0

/-! ## The word-index scripts (Examples 3-2, 3-4 and 3-5, Chapter 3)

All three scripts share the same scan: `WORD_RE = re.compile('\w+')`,
`for line_no, line in enumerate(fp, 1)`, and for each match
`word = match.group()`, `column_no = match.start() + 1`,
`location = (line_no, column_no)`.  They differ only in how the index dict
is updated for each `(word, location)` pair, and each finishes with
`for word in sorted(index, key=str.upper): print(word, index[word])`. -/

/-- A word character of the regex `\w` (ASCII model): letter, digit or
underscore. -/
def isWordChar (c : Char) : Bool :=
  c.isAlphanum || c = '_'

/-- `WORD_RE.finditer` over the characters of a line starting at offset
`i`: the maximal runs of word characters, each with its 0-based start
offset (`match.group()` and `match.start()`). -/
def findWordsAux : List Char → Nat → List (String × Nat)
  | [], _ => []
  | c :: rest, i =>
    if h : isWordChar c then
      (String.mk ((c :: rest).takeWhile isWordChar), i) ::
        findWordsAux ((c :: rest).dropWhile isWordChar)
          (i + ((c :: rest).takeWhile isWordChar).length)
    else
      findWordsAux rest (i + 1)
termination_by l _ => l.length
decreasing_by
  · rw [List.dropWhile_cons, if_pos h]
    exact Nat.lt_succ_of_le (List.dropWhile_sublist isWordChar).length_le
  · simp

/-- All regex matches of `\w+` in a line, with their start offsets. -/
def findWords (line : String) : List (String × Nat) :=
  findWordsAux line.data 0

/-- The `(word, (line_no, column_no))` stream common to the three scripts:
lines numbered from 1, columns are `match.start() + 1`. -/
def occurrencesOf (lines : List String) : List (String × (Nat × Nat)) :=
  lines.enum.flatMap fun p =>
    (findWords p.2).map fun w => (w.1, (p.1 + 1, w.2 + 1))

/-- One inner-loop step of Example 3-2:
`occurrences = index.get(word, [])`, `occurrences.append(location)`,
`index[word] = occurrences`. -/
def stepGet (index : List (String × List (Nat × Nat))) (occ : String × (Nat × Nat)) :
    List (String × List (Nat × Nat)) :=
  let occurrences := dictGet index occ.1 []
  dictInsert index occ.1 (occurrences ++ [occ.2])

/-- One inner-loop step of Example 3-4:
`index.setdefault(word, []).append(location)`.  `setdefault` returns the
stored list when the key is present and otherwise inserts `[]` and returns
it; the in-place `append` to that stored list is modelled by re-inserting
the extended list under the same key. -/
def stepSetdefault (index : List (String × List (Nat × Nat))) (occ : String × (Nat × Nat)) :
    List (String × List (Nat × Nat)) :=
  match dictLookup index occ.1 with
  | some occurrences => dictInsert index occ.1 (occurrences ++ [occ.2])
  | none => dictInsert (dictInsert index occ.1 []) occ.1 ([] ++ [occ.2])

/-- One inner-loop step of Example 3-5: `index[word].append(location)` on
`collections.defaultdict(list)`. -/
def stepDefaultdict (index : List (String × List (Nat × Nat))) (occ : String × (Nat × Nat)) :
    List (String × List (Nat × Nat)) :=
  let r := ddGetitem index (fun _ => []) occ.1
  dictInsert r.2 occ.1 (r.1 ++ [occ.2])

/-- The index built by Example 3-2 (`dict.get`). -/
def indexWithGet (lines : List String) : List (String × List (Nat × Nat)) :=
  (occurrencesOf lines).foldl stepGet []

/-- The index built by Example 3-4 (`dict.setdefault`). -/
def indexWithSetdefault (lines : List String) : List (String × List (Nat × Nat)) :=
  (occurrencesOf lines).foldl stepSetdefault []

/-- The index built by Example 3-5 (`collections.defaultdict`). -/
def indexWithDefaultdict (lines : List String) : List (String × List (Nat × Nat)) :=
  (occurrencesOf lines).foldl stepDefaultdict []

/-- The final report of each script,
`for word in sorted(index, key=str.upper): print(word, index[word])`:
the words in insertion order sorted by their uppercase form, each paired
with its looked-up occurrence list. -/
def printedIndex (index : List (String × List (Nat × Nat))) :
    List (String × Option (List (Nat × Nat))) :=
  ((index.map Prod.fst).mergeSort fun a b => decide (a.toUpper ≤ b.toUpper)).map
    fun w => (w, dictLookup index w)

theorem stepSetdefault_eq_stepGet :
    @stepSetdefault = @stepGet := by
  funext index occ
  unfold stepSetdefault stepGet dictGet
  cases h : dictLookup index occ.1 with
  | none => simp [h, dictInsert_dictInsert_self]
  | some occurrences => simp [h]

theorem stepDefaultdict_eq_stepGet :
    @stepDefaultdict = @stepGet := by
  funext index occ
  unfold stepDefaultdict stepGet ddGetitem dictGet
  cases h : dictLookup index occ.1 with
  | none => simp [h, dictInsert_dictInsert_self]
  | some occurrences => simp [h]

/-! ## Helper lemmas -/

theorem StrKeyDict.getitem_str {V : Type v} (d : StrKeyDict V) (s : String) :
    d.getitem (.str s) = dictLookup d.data (.str s) := by
  rw [StrKeyDict.getitem]
  cases dictLookup d.data (.str s) <;> rfl

theorem StrKeyDict.getitem_int {V : Type v} (d : StrKeyDict V) (n : Int) :
    d.getitem (.int n) =
      match dictLookup d.data (.int n) with
      | some v => some v
      | none => dictLookup d.data (.str (toString n)) := by
  rw [StrKeyDict.getitem]
  cases dictLookup d.data (.int n) with
  | some v => rfl
  | none => simp [StrKeyDict.getitem_str]

theorem dictInsert_keys_preserve {K : Type u} {V : Type v} [DecidableEq K]
    (P : K → Prop) (l : List (K × V)) (key : K) (value : V)
    (hl : ∀ p ∈ l, P p.1) (hk : P key) :
    ∀ p ∈ dictInsert l key value, P p.1 := by
  induction l with
  | nil =>
    intro p hp
    simp only [dictInsert_nil, List.mem_singleton] at hp
    simpa [hp] using hk
  | cons q rest ih =>
    obtain ⟨k, v⟩ := q
    intro p hp
    by_cases h : k = key
    · simp only [dictInsert_cons, if_pos h] at hp
      rcases List.mem_cons.mp hp with rfl | hmem
      · exact h ▸ hk
      · exact hl p (List.mem_cons_of_mem _ hmem)
    · simp only [dictInsert_cons, if_neg h] at hp
      rcases List.mem_cons.mp hp with rfl | hmem
      · exact hl (k, v) (List.mem_cons_self _ _)
      · exact ih (fun q hq => hl q (List.mem_cons_of_mem _ hq)) p hmem

theorem StrKeyDict.wf_setitem {V : Type v} (d : StrKeyDict V) (hwf : d.wf)
    (key : PyKey) (item : V) : (d.setitem key item).wf := by
  intro p hp
  exact dictInsert_keys_preserve (fun k => k.isStr = true) d.data
    (.str key.pyStr) item (fun q hq => hwf q hq) rfl p hp

theorem StrKeyDict.wf_setitems {V : Type v} (d : StrKeyDict V) (hwf : d.wf)
    (ops : List (PyKey × V)) : (d.setitems ops).wf := by
  induction ops generalizing d with
  | nil => exact hwf
  | cons p rest ih => exact ih _ (d.wf_setitem hwf p.1 p.2)

/-- A concrete `StrKeyDict` built through the class API, used to
instantiate the `StrKeyDict` theorems. -/
def sampleDict : StrKeyDict String :=
  StrKeyDict.empty.setitems [(.int 1, "one"), (.str "two", "2")]

/-! ## Claims -/

/-- C1: for every `StrKeyDict` instance `d` (well-formed, i.e. built through
the class API, so that `self.data` holds only string keys) and every
non-string key `k` such that `str(k)` is a key of `d.data`, the lookup
`d[k]` returns `d.data[str(k)]`: the miss on the raw non-string key is
redirected by `__missing__` to the string form of the key. -/
theorem strKeyDict_int_lookup_normalizes {V : Type v} (d : StrKeyDict V) (hwf : d.wf)
    (n : Int) (v : V) (h : dictLookup d.data (.str (PyKey.int n).pyStr) = some v) :
    d.getitem (.int n) = some v := by
  have hnone := dictLookup_int_eq_none_of_strKeys d.data (fun q hq => hwf q hq) n
  rw [StrKeyDict.getitem_int, hnone]
  exact h

theorem strKeyDict_int_lookup_normalizes_witness :
    sampleDict.wf ∧
    dictLookup sampleDict.data (.str (PyKey.int 1).pyStr) = some "one" ∧
    sampleDict.getitem (.int 1) = some "one" :=
  ⟨by decide, by decide,
    strKeyDict_int_lookup_normalizes sampleDict (by decide) 1 "one" (by decide)⟩

/-- C4: on a well-formed `StrKeyDict` instance, `d[k]` raises `KeyError`
(modelled `none`) exactly when `str(k)` is not a key of `d.data`; moreover
on a string key `__getitem__` is just the raw lookup of that key, so a
missing string key raises immediately without further normalization. -/
theorem strKeyDict_getitem_keyerror_iff {V : Type v} (d : StrKeyDict V) (hwf : d.wf)
    (k : PyKey) :
    (d.getitem k = none ↔ dictLookup d.data (.str k.pyStr) = none) ∧
    (∀ s : String, d.getitem (.str s) = dictLookup d.data (.str s)) := by
  constructor
  · cases k with
    | str s =>
      rw [StrKeyDict.getitem_str]
      exact Iff.rfl
    | int n =>
      have hnone := dictLookup_int_eq_none_of_strKeys d.data (fun q hq => hwf q hq) n
      rw [StrKeyDict.getitem_int, hnone]
      exact Iff.rfl
  · exact fun s => StrKeyDict.getitem_str d s

theorem strKeyDict_getitem_keyerror_iff_witness :
    sampleDict.wf ∧
    (sampleDict.getitem (.str "absent") = none ↔
      dictLookup sampleDict.data (.str (PyKey.str "absent").pyStr) = none) :=
  ⟨by decide, (strKeyDict_getitem_keyerror_iff sampleDict (by decide) (.str "absent")).1⟩

/-- C5: every embedded operation is a total function, and in particular
`StrKeyDict.__getitem__` terminates: a fuel of 2 entries (one for the
original key, one for the single `__missing__` re-entry with the string
form) always suffices to compute it. -/
theorem strKeyDict_getitem_fuel_two {V : Type v} (d : StrKeyDict V) (k : PyKey) :
    StrKeyDict.getitemFuel 2 d k = d.getitem k := by
  cases k with
  | str s =>
    rw [StrKeyDict.getitem_str]
    simp only [StrKeyDict.getitemFuel]
    cases dictLookup d.data (.str s) <;> rfl
  | int n =>
    rw [StrKeyDict.getitem_int]
    simp only [StrKeyDict.getitemFuel]
    cases dictLookup d.data (.int n) <;>
      cases dictLookup d.data (.str (toString n)) <;> rfl

theorem strKeyDict_getitem_fuel_two_witness :
    StrKeyDict.getitemFuel 2 sampleDict (.int 1) = sampleDict.getitem (.int 1) :=
  strKeyDict_getitem_fuel_two sampleDict (.int 1)

/-- C8: every key stored in `self.data` of a `StrKeyDict` is a string:
`__setitem__` applies `str()` before storing, and since `UserDict` routes
construction, item assignment and `update` through `__setitem__`, the
invariant holds after every sequence of those operations starting from an
empty instance. -/
theorem strKeyDict_data_keys_are_strings {V : Type v} (ops : List (PyKey × V)) :
    ((StrKeyDict.empty : StrKeyDict V).setitems ops).wf :=
  StrKeyDict.wf_setitems _ (fun p hp => absurd hp (List.not_mem_nil p)) ops

/-- C9: the membership test `k in d` on a `StrKeyDict` is a total boolean
function (it never raises) that returns `True` exactly when `str(k)` is a
key of `d.data`; consequently an integer key tests equal to its stored
string form. -/
theorem strKeyDict_contains_str_form {V : Type v} (d : StrKeyDict V) (k : PyKey) :
    (d.contains k = true ↔ ∃ v, dictLookup d.data (.str k.pyStr) = some v) ∧
    (∀ n : Int, d.contains (.int n) = d.contains (.str (toString n))) := by
  constructor
  · exact Option.isSome_iff_exists
  · intro n; rfl

/-- C2: on a plain dict a key `k` absent from `d` makes direct indexing
`d[k]` raise `KeyError` (the dict itself, a pure value here, is untouched),
while the fallback mechanisms supply a computed default without raising:
`d.get(k, [])` returns `[]`, and indexing a `collections.defaultdict`
created with `default_factory` `list` creates a new empty list, inserts it
under `k`, and returns it, so that a subsequent lookup of `k` finds it. -/
theorem dict_missing_key_behaviors {K : Type u} {A : Type v} [DecidableEq K]
    (d : List (K × List A)) (k : K) (habs : dictLookup d k = none) :
    dictGetitem d k = Except.error "KeyError" ∧
    dictGet d k [] = [] ∧
    ddGetitem d (fun _ => []) k = ([], dictInsert d k []) ∧
    dictLookup (dictInsert d k []) k = some [] := by
  refine ⟨?_, ?_, ?_, dictLookup_dictInsert_self d k []⟩
  · unfold dictGetitem
    rw [habs]
  · unfold dictGet
    rw [habs]
    rfl
  · unfold ddGetitem
    rw [habs]

theorem dict_missing_key_behaviors_witness :
    dictLookup [("a", ([1] : List Nat))] "b" = none ∧
    (dictGetitem [("a", ([1] : List Nat))] "b" = Except.error "KeyError" ∧
     dictGet [("a", ([1] : List Nat))] "b" [] = [] ∧
     ddGetitem [("a", ([1] : List Nat))] (fun _ => []) "b" =
       ([], dictInsert [("a", ([1] : List Nat))] "b" []) ∧
     dictLookup (dictInsert [("a", ([1] : List Nat))] "b" []) "b" = some []) :=
  ⟨by decide, dict_missing_key_behaviors [("a", ([1] : List Nat))] "b" (by decide)⟩

/-- C3: on every input text the three word-indexing scripts — Example 3-2
(`dict.get`), Example 3-4 (`dict.setdefault`) and Example 3-5
(`collections.defaultdict`) — build identical indexes (every word mapped to
the identical location list in identical order) and print the same lines in
the same sorted order. -/
theorem index_scripts_equivalent (lines : List String) :
    indexWithSetdefault lines = indexWithGet lines ∧
    indexWithDefaultdict lines = indexWithGet lines ∧
    printedIndex (indexWithSetdefault lines) = printedIndex (indexWithGet lines) ∧
    printedIndex (indexWithDefaultdict lines) = printedIndex (indexWithGet lines) := by
  have h1 : indexWithSetdefault lines = indexWithGet lines := by
    unfold indexWithSetdefault indexWithGet
    rw [stepSetdefault_eq_stepGet]
  have h2 : indexWithDefaultdict lines = indexWithGet lines := by
    unfold indexWithDefaultdict indexWithGet
    rw [stepDefaultdict_eq_stepGet]
  exact ⟨h1, h2, congrArg printedIndex h1, congrArg printedIndex h2⟩

/-- C6: a fresh `FrenchDeck` has 52 cards, and `deck[i]` returns the `i`-th
card of the internal list for every valid position, a negative position
counting from the back; every embedded deck operation is a pure function,
so none mutates the card list. -/
theorem frenchDeck_len_and_getitem :
    FrenchDeck.init.len = 52 ∧
    (∀ i : Int, 0 ≤ i → i < 52 →
      FrenchDeck.init.getitem i = FrenchDeck.init._cards.get? i.toNat) ∧
    (∀ i : Int, -52 ≤ i → i < 0 →
      FrenchDeck.init.getitem i = FrenchDeck.init._cards.get? (i + 52).toNat) := by
  refine ⟨by decide, ?_, ?_⟩
  · intro i h0 _
    unfold FrenchDeck.getitem listGetitem
    rw [if_pos h0]
  · intro i hlo hhi
    unfold FrenchDeck.getitem listGetitem
    have hlen : ((FrenchDeck.init._cards.length : Int)) = 52 := by decide
    rw [if_neg (by omega), hlen, if_pos (by omega), Int.add_comm 52 i]

theorem frenchDeck_len_and_getitem_witness :
    (-52 : Int) ≤ -1 ∧ (-1 : Int) < 0 ∧
    FrenchDeck.init.getitem (-1) = FrenchDeck.init._cards.get? ((-1 : Int) + 52).toNat ∧
    FrenchDeck.init.getitem (-1) = some ⟨"A", "hearts"⟩ :=
  ⟨by decide, by decide,
    frenchDeck_len_and_getitem.2.2 (-1) (by decide) (by decide), by decide⟩

/-- C7: the 2D `Vector` operators are componentwise — `v1 + v2` is
`Vector(x1 + x2, y1 + y2)`, `v1 * s` is `Vector(x1 * s, y1 * s)` —
`abs(v1)` is `hypot(x1, y1)`, and `bool(v1)` is `False` exactly when
`abs(v1)` is zero; the operands, pure values here, are left unchanged. -/
theorem vector_componentwise (x1 y1 x2 y2 s : Real) :
    Vector.add ⟨x1, y1⟩ ⟨x2, y2⟩ = ⟨x1 + x2, y1 + y2⟩ ∧
    Vector.mul ⟨x1, y1⟩ s = ⟨x1 * s, y1 * s⟩ ∧
    Vector.abs ⟨x1, y1⟩ = hypot x1 y1 ∧
    (¬ Vector.toBool ⟨x1, y1⟩ ↔ Vector.abs ⟨x1, y1⟩ = 0) := by
  refine ⟨rfl, rfl, rfl, ?_⟩
  unfold Vector.toBool
  exact not_not

/-- The suit value stated by the claim: spades=3, hearts=2, diamonds=1,
clubs=0 (0 on any other string, unreachable for deck cards). -/
def suitValueSpec : String → Nat
  | "spades" => 3
  | "hearts" => 2
  | "diamonds" => 1
  | "clubs" => 0
  | _ => 0

/-- C10: on every card of a fresh deck `spades_high` computes
(rank index in `FrenchDeck.ranks`) * 4 + the suit value spades=3, hearts=2,
diamonds=1, clubs=0; over the 52 deck cards it is injective with range
exactly `0..51`, sending the 2 of clubs to 0 and the ace of spades to 51. -/
theorem spades_high_ranks_deck :
    FrenchDeck.init._cards.Forall
      (fun c => spades_high c =
        some ((FrenchDeck.ranks.indexOf? c.rank).getD 0 * 4 + suitValueSpec c.suit)) ∧
    (FrenchDeck.init._cards.map spades_high).Nodup ∧
    (FrenchDeck.init._cards.map spades_high).length = 52 ∧
    (List.range 52).Forall (fun m => some m ∈ FrenchDeck.init._cards.map spades_high) ∧
    FrenchDeck.init._cards.Forall (fun c => spades_high c ∈ (List.range 52).map some) ∧
    spades_high ⟨"2", "clubs"⟩ = some 0 ∧
    spades_high ⟨"A", "spades"⟩ = some 51 := by
  decide

end FluentPython
